import Mathlib

/-!
Verification of the seed-and-factory data generation workflow of a
Next.js + Prisma demo repository.

The repository consists of:
  * `prisma/seed.ts` — the Seeder: a loop of ten sequential user
    insertions wrapped in a try/catch, followed by a top-level
    then/catch handler that disconnects and sets the process exit code;
  * `factories/index.ts` — `categoryFactory`: generates one category
    name and persists it, returning the stored record;
  * a Jest CRUD test suite exercising create / read-all / update-style
    create / delete / factory-volume scenarios against the client.

The Prisma data-access client is external to the repository; it is
embedded here as a pure state-passing store over the schema declared in
the repository (README `schema.prisma`): `User { id @default(uuid),
name, email }`, `Category { id @default(uuid), name }`.  System
identifier generation (`uuid()`) is modelled abstractly by an injective
function from a per-store counter to non-empty strings.  Random data
from `faker` is modelled by oracle functions supplying the generated
strings, and possible insertion failures (constraint violations,
connectivity) by a failure oracle.
-/

namespace SeedFactory

/-- Abstract model of `@default(uuid())` identifier generation: the
store assigns the identifier from its internal counter.  The concrete
string shape is irrelevant; what matters is that distinct counter
values give distinct, non-empty identifiers. -/
def freshId (n : Nat) : String := String.mk (List.replicate (n + 1) 'u')

/-- A `User` row of the schema: `id String @id @default(uuid())`,
`email String`, `name String`. -/
structure User where
  id : String
  name : String
  email : String
deriving DecidableEq, Repr

/-- A `Category` row of the schema: `id String @id @default(uuid())`,
`name String`. -/
structure Category where
  id : String
  name : String
deriving DecidableEq, Repr

/-- The persistent store behind the Prisma client: the `User` and
`Category` tables plus the identifier counter. -/
structure Store where
  users : List User
  categories : List Category
  nextId : Nat
deriving DecidableEq, Repr

def Store.empty : Store := ⟨[], [], 0⟩

/-- `prisma.user.create({ data: { name, email } })`: the payload
carries only `name` and `email`; the identifier is assigned by the
store from its counter.  Returns the persisted record and the new
store state. -/
def Store.createUser (s : Store) (name email : String) : User × Store :=
  let u : User := ⟨freshId s.nextId, name, email⟩
  (u, ⟨s.users ++ [u], s.categories, s.nextId + 1⟩)

/-- `prisma.category.create({ data: { name } })`: the payload carries
only `name`; the identifier is assigned by the store. -/
def Store.createCategory (s : Store) (name : String) : Category × Store :=
  let c : Category := ⟨freshId s.nextId, name⟩
  (c, ⟨s.users, s.categories ++ [c], s.nextId + 1⟩)

/-- `prisma.user.findUnique({ where: { id } })`: returns the record or
`none` when absent; absence is not an error. -/
def Store.findUniqueUser (s : Store) (id : String) : Option User :=
  s.users.find? (fun u => u.id == id)

/-- `prisma.user.findMany()`: all user records. -/
def Store.findManyUsers (s : Store) : List User :=
  s.users

/-- `prisma.user.delete({ where: { id } })`: removes the record with
the given identifier; fails (`none`) when no such record exists. -/
def Store.deleteUser (s : Store) (id : String) : Option Store :=
  if s.users.any (fun u => u.id == id) then
    some ⟨s.users.filter (fun u => u.id != id), s.categories, s.nextId⟩
  else
    none

/-- Fallible insertion of a category, as seen by callers of the Prisma
client: the failure oracle says whether this particular request fails
(constraint violation, connectivity); on success it behaves as
`Store.createCategory`. -/
def Store.createCategoryE (s : Store) (name : String) (failure : Option String) :
    Except String (Category × Store) :=
  match failure with
  | some e => Except.error e
  | none => Except.ok (s.createCategory name)

/-! ## The Factory (`factories/index.ts`, `categoryFactory`)

```
export async function categoryFactory() {
    const categoryData = { name: faker.lorem.word() };
    const category = await prisma.category.create({
        data: { name: categoryData.name },
    });
    return category;
}
```

`wordGen` stands for the `faker.lorem.word()` result.  The function
has no local try/catch: a failing insertion propagates to the caller
unchanged. -/

/-- `categoryFactory`, successful-client form, as used by the
factory-volume test: build the name payload, insert, return the stored
record. -/
def categoryFactory (wordGen : String) (s : Store) : Category × Store :=
  let categoryData := wordGen
  s.createCategory categoryData

/-- `categoryFactory` over the fallible client: the body performs no
retry, no validation and no local catch, so the insertion's outcome is
the factory's outcome. -/
def categoryFactoryE (wordGen : String) (failure : Option String) (s : Store) :
    Except String (Category × Store) :=
  let categoryData := wordGen
  match s.createCategoryE categoryData failure with
  | Except.error e => Except.error e
  | Except.ok r => Except.ok r

/-- The factory-volume test's loop (`crud.test` file):

```
for (let i = 0; i < numberOfCategoriesToGenerate; i++) {
    const createdCategory = await categoryFactory();
    createdCategories.push(createdCategory);
}
```

Each call is awaited before the next; results are collected in order.
`wordGen i` is the word faker hands the `i`-th factory call. -/
def factoryLoop (wordGen : Nat → String) : Nat → Nat → Store → List Category × Store
  | _, 0, s => ([], s)
  | i, k + 1, s =>
    let createdCategory := categoryFactory (wordGen i) s
    let rest := factoryLoop wordGen (i + 1) k createdCategory.2
    (createdCategory.1 :: rest.1, rest.2)

/-- The factory-volume test: invoke the factory `K` times sequentially
(the test uses `numberOfCategoriesToGenerate = 5`), collecting the
created categories. -/
def factoryVolumeTest (wordGen : Nat → String) (K : Nat) (s : Store) :
    List Category × Store :=
  factoryLoop wordGen 0 K s

/-! ## The Seeder (`prisma/seed.ts`)

```
const fakerUser = (): any => ({
    name: faker.person.firstName(),
    email: faker.internet.email(),
});

const main = async () => {
    const fakerRounds = 10;
    try {
        for (let i = 0; i < fakerRounds; i++) {
            await db.user.create({ data: fakerUser() });
        }
    } catch (error) {
        console.log(error);
    }
};

main()
    .then(async () => { await db.$disconnect(); })
    .catch(async (e) => {
        console.error(e);
        await db.$disconnect();
        process.exit(1);
    });
```

`fails i` says whether the `i`-th insertion request (0-based) fails;
`nameGen` / `emailGen` stand for the faker calls of `fakerUser`. -/

/-- `fakerUser()`: the insertion payload built by the Seeder — a name
and an email, nothing else (in particular no identifier). -/
def fakerUser (nameGen emailGen : Nat → String) (i : Nat) : String × String :=
  (nameGen i, emailGen i)

/-- The Seeder's `for` loop with its surrounding try/catch: `i` is the
loop counter, the second argument the number of remaining iterations.
On the first failing insertion the error is caught (returned as
`some i`, the logged error's position) and the loop stops; otherwise
all iterations run and the result is `none`. -/
def seedLoop (fails : Nat → Bool) (nameGen emailGen : Nat → String) :
    Nat → Nat → Store → Store × Option Nat
  | _, 0, s => (s, none)
  | i, k + 1, s =>
    if fails i then
      (s, some i)
    else
      seedLoop fails nameGen emailGen (i + 1) k
        (s.createUser (fakerUser nameGen emailGen i).1 (fakerUser nameGen emailGen i).2).2

/-- `const fakerRounds = 10`. -/
def fakerRounds : Nat := 10

/-- `main`: runs the loop for `fakerRounds` iterations starting at
`i = 0`.  Because the catch is inside `main`, `main` itself always
resolves (its value records the final store and the caught error, if
any). -/
def seederMain (fails : Nat → Bool) (nameGen emailGen : Nat → String) (s : Store) :
    Store × Option Nat :=
  seedLoop fails nameGen emailGen 0 fakerRounds s

/-- The outcome of an awaited promise: resolved with a value, or
rejected with an error. -/
inductive PromiseResult (α : Type) where
  | resolved : α → PromiseResult α
  | rejected : String → PromiseResult α
deriving DecidableEq, Repr

/-- How the Seeder process ends: the exit status, whether
`db.$disconnect()` was awaited, and whether the top-level handler
logged an error. -/
structure ProcessEnd where
  exitCode : Nat
  disconnected : Bool
  loggedTopError : Bool
deriving DecidableEq, Repr

/-- The top-level `main().then(...).catch(...)` handler: on a resolved
`main`, disconnect and exit normally (status 0); on a rejected `main`,
log the error, disconnect, and `process.exit(1)`. -/
def topHandler {α : Type} (p : PromiseResult α) : ProcessEnd :=
  match p with
  | PromiseResult.resolved _ => ⟨0, true, false⟩
  | PromiseResult.rejected _ => ⟨1, true, true⟩

/-- The promise returned by calling `main()`: the loop-level catch
swallows every insertion failure, so the promise always resolves. -/
def mainPromise (fails : Nat → Bool) (nameGen emailGen : Nat → String) (s : Store) :
    PromiseResult (Store × Option Nat) :=
  PromiseResult.resolved (seederMain fails nameGen emailGen s)

/-- The whole Seeder run: `main()` followed by the top-level handler. -/
def seederProcess (fails : Nat → Bool) (nameGen emailGen : Nat → String) (s : Store) :
    (Store × Option Nat) × ProcessEnd :=
  (seederMain fails nameGen emailGen s,
   topHandler (mainPromise fails nameGen emailGen s))

/-! ## Store well-formedness

Every identifier in a reachable store was assigned by the store from
an earlier counter value, and identifiers are duplicate-free per
table.  `Store.empty` satisfies this and every operation preserves
it. -/

/-- Well-formedness of a store: each record's identifier came from the
counter, and identifiers are unique within each entity kind. -/
def Store.WF (s : Store) : Prop :=
  (∀ u ∈ s.users, ∃ k, k < s.nextId ∧ u.id = freshId k) ∧
  (∀ c ∈ s.categories, ∃ k, k < s.nextId ∧ c.id = freshId k) ∧
  (s.users.map User.id).Nodup ∧
  (s.categories.map Category.id).Nodup

/-! ## Helper lemmas -/

theorem freshId_injective : Function.Injective freshId := by
  intro m n h
  have hlen : (List.replicate (m + 1) 'u').length = (List.replicate (n + 1) 'u').length := by
    have : (String.mk (List.replicate (m + 1) 'u')).data =
        (String.mk (List.replicate (n + 1) 'u')).data := by
      rw [show String.mk (List.replicate (m + 1) 'u') = String.mk (List.replicate (n + 1) 'u') from h]
    simpa using congrArg List.length this
  simpa using hlen

theorem freshId_ne_empty (n : Nat) : freshId n ≠ "" := by
  intro h
  have : (String.mk (List.replicate (n + 1) 'u')).data = ("" : String).data := by
    rw [show String.mk (List.replicate (n + 1) 'u') = "" from h]
  simp at this

theorem Store.WF_empty : Store.empty.WF := by
  constructor
  · intro u hu; simp [Store.empty] at hu
  constructor
  · intro c hc; simp [Store.empty] at hc
  constructor
  · simp [Store.empty]
  · simp [Store.empty]

/-- A well-formed store contains no record carrying the identifier the
store would assign next. -/
theorem Store.WF.user_id_ne_next {s : Store} (h : s.WF) :
    ∀ u ∈ s.users, u.id ≠ freshId s.nextId := by
  intro u hu heq
  obtain ⟨k, hk, hid⟩ := h.1 u hu
  exact absurd (freshId_injective (hid ▸ heq)) (Nat.ne_of_lt hk)

theorem Store.WF.category_id_ne_next {s : Store} (h : s.WF) :
    ∀ c ∈ s.categories, c.id ≠ freshId s.nextId := by
  intro c hc heq
  obtain ⟨k, hk, hid⟩ := h.2.1 c hc
  exact absurd (freshId_injective (hid ▸ heq)) (Nat.ne_of_lt hk)

theorem Store.WF_createUser {s : Store} (h : s.WF) (name email : String) :
    (s.createUser name email).2.WF := by
  obtain ⟨hu, hc, hnu, hnc⟩ := h
  refine ⟨?_, ?_, ?_, ?_⟩
  · intro u hmem
    simp only [Store.createUser, List.mem_append, List.mem_singleton] at hmem
    rcases hmem with hold | hnew
    · obtain ⟨k, hk, hid⟩ := hu u hold
      exact ⟨k, Nat.lt_succ_of_lt hk, hid⟩
    · exact ⟨s.nextId, Nat.lt_succ_self _, by rw [hnew]⟩
  · intro c hmem
    simp only [Store.createUser] at hmem
    obtain ⟨k, hk, hid⟩ := hc c hmem
    exact ⟨k, Nat.lt_succ_of_lt hk, hid⟩
  · simp only [Store.createUser, List.map_append, List.map_cons, List.map_nil]
    rw [List.nodup_append]
    refine ⟨hnu, List.nodup_singleton _, ?_⟩
    intro a ha hb
    simp only [List.mem_singleton] at hb
    simp only [List.mem_map] at ha
    obtain ⟨u, hu', hid⟩ := ha
    exact Store.WF.user_id_ne_next ⟨hu, hc, hnu, hnc⟩ u hu' (hid.symm ▸ hb)
  · simpa [Store.createUser] using hnc

theorem Store.WF_createCategory {s : Store} (h : s.WF) (name : String) :
    (s.createCategory name).2.WF := by
  obtain ⟨hu, hc, hnu, hnc⟩ := h
  refine ⟨?_, ?_, ?_, ?_⟩
  · intro u hmem
    simp only [Store.createCategory] at hmem
    obtain ⟨k, hk, hid⟩ := hu u hmem
    exact ⟨k, Nat.lt_succ_of_lt hk, hid⟩
  · intro c hmem
    simp only [Store.createCategory, List.mem_append, List.mem_singleton] at hmem
    rcases hmem with hold | hnew
    · obtain ⟨k, hk, hid⟩ := hc c hold
      exact ⟨k, Nat.lt_succ_of_lt hk, hid⟩
    · exact ⟨s.nextId, Nat.lt_succ_self _, by rw [hnew]⟩
  · simpa [Store.createCategory] using hnu
  · simp only [Store.createCategory, List.map_append, List.map_cons, List.map_nil]
    rw [List.nodup_append]
    refine ⟨hnc, List.nodup_singleton _, ?_⟩
    intro a ha hb
    simp only [List.mem_singleton] at hb
    simp only [List.mem_map] at ha
    obtain ⟨c, hc', hid⟩ := ha
    exact Store.WF.category_id_ne_next ⟨hu, hc, hnu, hnc⟩ c hc' (hid.symm ▸ hb)

theorem Store.WF_deleteUser {s : Store} (h : s.WF) (id : String) :
    ∀ t, s.deleteUser id = some t → t.WF := by
  intro t ht
  obtain ⟨hu, hc, hnu, hnc⟩ := h
  simp only [Store.deleteUser] at ht
  by_cases hany : s.users.any (fun u => u.id == id)
  · rw [if_pos hany] at ht
    injection ht with ht'
    subst ht'
    refine ⟨?_, ?_, ?_, ?_⟩
    · intro u hmem
      exact hu u (List.mem_of_mem_filter hmem)
    · intro c hmem
      exact hc c hmem
    · exact ((List.filter_sublist _).map User.id).nodup hnu
    · exact hnc
  · rw [if_neg hany] at ht
    exact absurd ht (by simp)

/-- Searching a list extended on the right finds the new element when
nothing in the prefix matches. -/
theorem find?_append_singleton {α : Type} (l : List α) (p : α → Bool) (a : α)
    (hl : ∀ x ∈ l, p x = false) (ha : p a = true) :
    (l ++ [a]).find? p = some a := by
  induction l with
  | nil => simp [List.find?, ha]
  | cons x xs ih =>
    have hx : p x = false := hl x (List.mem_cons_self x xs)
    simp only [List.cons_append, List.find?_cons, hx]
    exact ih (fun y hy => hl y (List.mem_cons_of_mem x hy))

/-- The Seeder loop when no insertion in its range fails: every
iteration runs, each adding one user, and no error is caught. -/
theorem seedLoop_no_fail (fails : Nat → Bool) (nameGen emailGen : Nat → String) :
    ∀ (k i : Nat) (s : Store), (∀ t, t < k → fails (i + t) = false) →
      (seedLoop fails nameGen emailGen i k s).1.users.length = s.users.length + k ∧
      (seedLoop fails nameGen emailGen i k s).2 = none := by
  intro k
  induction k with
  | zero => intro i s _; simp [seedLoop]
  | succ n ih =>
    intro i s h
    have h0 : fails i = false := by simpa using h 0 (Nat.succ_pos n)
    have hrec := ih (i + 1) ((s.createUser (fakerUser nameGen emailGen i).1
        (fakerUser nameGen emailGen i).2).2) (fun t ht => by
      have := h (t + 1) (Nat.succ_lt_succ ht)
      simpa [Nat.add_assoc, Nat.add_comm 1 t] using this)
    simp only [seedLoop, h0, Bool.false_eq_true, if_false]
    refine ⟨?_, hrec.2⟩
    rw [hrec.1]
    simp [Store.createUser]
    omega

/-- The Seeder loop when the `j`-th insertion of its range is the
first to fail: exactly `j` users are added, the error is caught at
position `i + j`, and the loop stops there. -/
theorem seedLoop_first_fail (fails : Nat → Bool) (nameGen emailGen : Nat → String) :
    ∀ (j k i : Nat) (s : Store), j < k → fails (i + j) = true →
      (∀ t, t < j → fails (i + t) = false) →
      (seedLoop fails nameGen emailGen i k s).1.users.length = s.users.length + j ∧
      (seedLoop fails nameGen emailGen i k s).2 = some (i + j) := by
  intro j
  induction j with
  | zero =>
    intro k i s hk hf _
    obtain ⟨k', rfl⟩ : ∃ k', k = k' + 1 := ⟨k - 1, by omega⟩
    have h0 : fails i = true := by simpa using hf
    simp [seedLoop, h0]
  | succ n ih =>
    intro k i s hk hf hprev
    obtain ⟨k', rfl⟩ : ∃ k', k = k' + 1 := ⟨k - 1, by omega⟩
    have h0 : fails i = false := by simpa using hprev 0 (Nat.succ_pos n)
    have hrec := ih k' (i + 1) ((s.createUser (fakerUser nameGen emailGen i).1
        (fakerUser nameGen emailGen i).2).2) (by omega)
      (by rw [show i + 1 + n = i + (n + 1) by omega]; exact hf)
      (fun t ht => by
        rw [show i + 1 + t = i + (t + 1) by omega]
        exact hprev (t + 1) (by omega))
    simp only [seedLoop, h0, Bool.false_eq_true, if_false]
    constructor
    · rw [hrec.1]
      simp [Store.createUser]
      omega
    · rw [hrec.2]
      congr 1
      omega

/-- Full description of the factory-volume loop: the collected list is
one category per iteration with counter-assigned identifiers, the
final store holds the old categories followed by the collected ones,
the counter advanced by the iteration count, and users are
untouched. -/
theorem factoryLoop_spec (wordGen : Nat → String) :
    ∀ (k i : Nat) (s : Store),
      (factoryLoop wordGen i k s).1 =
        (List.range k).map (fun j => ⟨freshId (s.nextId + j), wordGen (i + j)⟩) ∧
      (factoryLoop wordGen i k s).2.categories =
        s.categories ++ (factoryLoop wordGen i k s).1 ∧
      (factoryLoop wordGen i k s).2.nextId = s.nextId + k ∧
      (factoryLoop wordGen i k s).2.users = s.users := by
  intro k
  induction k with
  | zero => intro i s; simp [factoryLoop]
  | succ n ih =>
    intro i s
    have hrec := ih (i + 1) (categoryFactory (wordGen i) s).2
    have hl : (factoryLoop wordGen (i + 1) n (categoryFactory (wordGen i) s).2).1 =
        (List.range n).map
          (fun j => ⟨freshId (s.nextId + (j + 1)), wordGen (i + (j + 1))⟩) := by
      rw [hrec.1]
      apply List.map_congr_left
      intro j _
      have h1 : (categoryFactory (wordGen i) s).2.nextId + j = s.nextId + (j + 1) := by
        simp [categoryFactory, Store.createCategory]
        omega
      have h2 : i + 1 + j = i + (j + 1) := by omega
      rw [h1, h2]
    refine ⟨?_, ?_, ?_, ?_⟩
    · simp only [factoryLoop]
      rw [hl, List.range_succ_eq_map, List.map_cons, List.map_map]
      rfl
    · simp only [factoryLoop]
      rw [hrec.2.1]
      simp [categoryFactory, Store.createCategory, List.append_assoc]
    · simp only [factoryLoop]
      rw [hrec.2.2.1]
      simp [categoryFactory, Store.createCategory]
      omega
    · simp only [factoryLoop]
      rw [hrec.2.2.2]
      simp [categoryFactory, Store.createCategory]

/-! ## Claim theorems -/

/-- C1: the Seeder run, given a reachable store, adds exactly ten new
User records when no insertion fails; when the first failing insertion
is at 0-based position `j` (the `(j+1)`-th insertion), exactly `j`
records are added beyond the pre-existing state — at most `N - 1` for
the `N`-th insertion — the failure is caught and surfaces as the
loop's logged outcome `some j`, and no insertion after it is
attempted. -/
theorem seeder_run_contract (fails : Nat → Bool) (nameGen emailGen : Nat → String)
    (s : Store) :
    ((∀ i, i < fakerRounds → fails i = false) →
      (seederMain fails nameGen emailGen s).1.users.length = s.users.length + 10 ∧
      (seederMain fails nameGen emailGen s).2 = none) ∧
    (∀ j, j < fakerRounds → fails j = true → (∀ i, i < j → fails i = false) →
      (seederMain fails nameGen emailGen s).1.users.length = s.users.length + j ∧
      (seederMain fails nameGen emailGen s).2 = some j) := by
  constructor
  · intro h
    have hloop := seedLoop_no_fail fails nameGen emailGen fakerRounds 0 s
      (fun t ht => by simpa using h t ht)
    exact ⟨hloop.1, hloop.2⟩
  · intro j hj hf hprev
    have hloop := seedLoop_first_fail fails nameGen emailGen j fakerRounds 0 s hj
      (by simpa using hf) (fun t ht => by simpa using hprev t ht)
    exact ⟨hloop.1, by simpa using hloop.2⟩

/-- Witness for `seeder_run_contract`: a failure-free run over the
empty store adds ten users; a run whose third insertion (index 2) is
the first to fail stops with the caught error at index 2. -/
theorem seeder_run_contract_witness :
    (seederMain (fun _ => false) (fun _ => "Ada") (fun _ => "a@b.c")
        Store.empty).1.users.length = 10 ∧
    (seederMain (fun i => decide (2 ≤ i)) (fun _ => "Ada") (fun _ => "a@b.c")
        Store.empty).2 = some 2 := by
  constructor
  · exact ((seeder_run_contract (fun _ => false) (fun _ => "Ada") (fun _ => "a@b.c")
      Store.empty).1 (fun i _ => rfl)).1
  · exact ((seeder_run_contract (fun i => decide (2 ≤ i)) (fun _ => "Ada")
      (fun _ => "a@b.c") Store.empty).2 2 (by decide) (by decide)
      (fun i hi => by simp only [decide_eq_false_iff_not]; omega)).2

/-- C2: inserting a user with any name and email into a well-formed
store and fetching by the identifier returned from the insertion
yields exactly the inserted record — the Create test's round-trip
assertion. -/
theorem create_then_findUnique_roundtrip (s : Store) (name email : String)
    (h : s.WF) :
    (s.createUser name email).2.findUniqueUser (s.createUser name email).1.id =
      some (s.createUser name email).1 := by
  have hne : ∀ x ∈ s.users, (x.id == (s.createUser name email).1.id) = false := by
    intro x hx
    have hx' : x.id ≠ freshId s.nextId := Store.WF.user_id_ne_next h x hx
    simpa [Store.createUser] using hx'
  simp only [Store.findUniqueUser, Store.createUser]
  exact find?_append_singleton _ _ _ hne (by simp)

/-- Witness for `create_then_findUnique_roundtrip` at the empty store
with the spec's example record. -/
theorem create_then_findUnique_roundtrip_witness :
    (Store.empty.createUser "Ada Lovelace" "ada@example.com").2.findUniqueUser
        (Store.empty.createUser "Ada Lovelace" "ada@example.com").1.id =
      some (Store.empty.createUser "Ada Lovelace" "ada@example.com").1 :=
  create_then_findUnique_roundtrip Store.empty "Ada Lovelace" "ada@example.com"
    Store.WF_empty

/-- C3: inserting a user and deleting it by its identifier succeeds,
and afterwards fetching by that identifier returns the explicit empty
result `none` — never an error. -/
theorem create_delete_find_none (s : Store) (name email : String) :
    ∃ t, (s.createUser name email).2.deleteUser (s.createUser name email).1.id
        = some t ∧
      t.findUniqueUser (s.createUser name email).1.id = none := by
  refine ⟨⟨(s.createUser name email).2.users.filter
      (fun v => v.id != (s.createUser name email).1.id),
    (s.createUser name email).2.categories, (s.createUser name email).2.nextId⟩,
    ?_, ?_⟩
  · have hany : (s.createUser name email).2.users.any
        (fun v => v.id == (s.createUser name email).1.id) = true := by
      rw [List.any_eq_true]
      exact ⟨(s.createUser name email).1, by simp [Store.createUser], by simp⟩
    simp [Store.deleteUser, hany]
  · simp only [Store.findUniqueUser]
    rw [List.find?_eq_none]
    intro x hx
    have hmem := List.mem_filter.mp hx
    simpa using hmem.2

/-- C4: invoking the factory `K` times sequentially yields exactly `K`
collected records, the store gains exactly `K` persisted categories,
and the collected records carry pairwise distinct identifiers. -/
theorem factory_sequential_volume (wordGen : Nat → String) (K : Nat) (s : Store) :
    (factoryVolumeTest wordGen K s).1.length = K ∧
    (factoryVolumeTest wordGen K s).2.categories.length
        = s.categories.length + K ∧
    ((factoryVolumeTest wordGen K s).1.map Category.id).Nodup := by
  have h := factoryLoop_spec wordGen K 0 s
  refine ⟨?_, ?_, ?_⟩
  · rw [show (factoryVolumeTest wordGen K s).1 = _ from h.1]
    simp
  · rw [show (factoryVolumeTest wordGen K s).2.categories = _ from h.2.1, h.1]
    simp
  · rw [show (factoryVolumeTest wordGen K s).1 = _ from h.1, List.map_map]
    refine List.Nodup.map ?_ (List.nodup_range K)
    intro a b hab
    simp only [Function.comp] at hab
    have := freshId_injective hab
    omega

/-- C5: the factory returns the record persisted by the store — with
the system-assigned identifier, not just the input name echoed back —
appended to the category table; over the fallible client it propagates
an insertion failure to its caller unchanged, with no retry, no
validation and no local catch. -/
theorem categoryFactory_contract (wordGen e : String) (s : Store) :
    categoryFactoryE wordGen (some e) s = Except.error e ∧
    categoryFactoryE wordGen none s = Except.ok (categoryFactory wordGen s) ∧
    (categoryFactory wordGen s).1.id = freshId s.nextId ∧
    (categoryFactory wordGen s).1.name = wordGen ∧
    (categoryFactory wordGen s).2.categories =
      s.categories ++ [(categoryFactory wordGen s).1] :=
  ⟨rfl, rfl, rfl, rfl, rfl⟩

/-- C6: the Seeder process ends in a defined way: a resolved `main`
leads to disconnect and exit status 0 with no top-level log; a
rejected `main` leads to a logged error, disconnect, and exit status
1; the actual process end is exactly the handler applied to `main`'s
promise. -/
theorem seeder_process_termination (α : Type) (r : α) (e : String)
    (fails : Nat → Bool) (nameGen emailGen : Nat → String) (s : Store) :
    topHandler (PromiseResult.resolved r) = ⟨0, true, false⟩ ∧
    topHandler (PromiseResult.rejected e : PromiseResult α) = ⟨1, true, true⟩ ∧
    (seederProcess fails nameGen emailGen s).2 =
      topHandler (mainPromise fails nameGen emailGen s) :=
  ⟨rfl, rfl, rfl⟩

/-- C7: the record returned by inserting a user with given name and
email values has exactly those name and email values (the "update"
test only validates that creation preserves the given fields). -/
theorem create_preserves_fields (s : Store) (name email : String) :
    (s.createUser name email).1.name = name ∧
    (s.createUser name email).1.email = email :=
  ⟨rfl, rfl⟩

/-- C8: in a well-formed store, every insertion returns a record whose
identifier is non-empty and distinct from every existing record of
that kind, well-formedness (including per-kind identifier uniqueness)
is preserved, pre-existing records are left untouched by insertions,
and deletion only removes records, never rewrites one. -/
theorem identifier_invariant (s : Store) (name email catName delId : String)
    (h : s.WF) :
    ((s.createUser name email).1.id ≠ "" ∧
      (∀ v ∈ s.users, v.id ≠ (s.createUser name email).1.id) ∧
      (s.createUser name email).2.WF ∧
      (s.createUser name email).2.users
        = s.users ++ [(s.createUser name email).1]) ∧
    ((s.createCategory catName).1.id ≠ "" ∧
      (∀ d ∈ s.categories, d.id ≠ (s.createCategory catName).1.id) ∧
      (s.createCategory catName).2.WF ∧
      (s.createCategory catName).2.categories
        = s.categories ++ [(s.createCategory catName).1]) ∧
    (∀ t, s.deleteUser delId = some t → ∀ v ∈ t.users, v ∈ s.users) := by
  refine ⟨⟨freshId_ne_empty s.nextId,
      fun v hv => Store.WF.user_id_ne_next h v hv,
      Store.WF_createUser h name email, rfl⟩,
    ⟨freshId_ne_empty s.nextId,
      fun d hd => Store.WF.category_id_ne_next h d hd,
      Store.WF_createCategory h catName, rfl⟩, ?_⟩
  intro t ht v hv
  simp only [Store.deleteUser] at ht
  by_cases hany : s.users.any (fun u => u.id == delId)
  · rw [if_pos hany] at ht
    injection ht with ht'
    subst ht'
    exact List.mem_of_mem_filter hv
  · rw [if_neg hany] at ht
    exact absurd ht (by simp)

/-- Witness for `identifier_invariant` at the empty store. -/
theorem identifier_invariant_witness :
    (Store.empty.createUser "Ada Lovelace" "ada@example.com").1.id ≠ "" :=
  (identifier_invariant Store.empty "Ada Lovelace" "ada@example.com" "Books" "x"
    Store.WF_empty).1.1

/-- C9: when an insertion inside the Seeder's loop fails (first
failure at 0-based position `j`), the loop-level catch swallows it —
the caught error surfaces as the loop outcome `some j`, `main`'s
promise still resolves — so the process exits with status 0; the
rejection handler that calls `process.exit(1)` is never reached by an
insertion failure. -/
theorem insertion_failure_exits_zero (fails : Nat → Bool)
    (nameGen emailGen : Nat → String) (s : Store) (j : Nat)
    (hj : j < fakerRounds) (hf : fails j = true)
    (hprev : ∀ i, i < j → fails i = false) :
    (seederMain fails nameGen emailGen s).2 = some j ∧
    mainPromise fails nameGen emailGen s =
      PromiseResult.resolved (seederMain fails nameGen emailGen s) ∧
    (seederProcess fails nameGen emailGen s).2.exitCode = 0 := by
  refine ⟨?_, rfl, rfl⟩
  have hloop := seedLoop_first_fail fails nameGen emailGen j fakerRounds 0 s hj
    (by simpa using hf) (fun t ht => by simpa using hprev t ht)
  simpa using hloop.2

/-- Witness for `insertion_failure_exits_zero`: every insertion fails
from the start, yet the process exit code is 0. -/
theorem insertion_failure_exits_zero_witness :
    (seederProcess (fun _ => true) (fun _ => "Ada") (fun _ => "a@b.c")
        Store.empty).2.exitCode = 0 :=
  (insertion_failure_exits_zero (fun _ => true) (fun _ => "Ada") (fun _ => "a@b.c")
    Store.empty 0 (by decide) rfl
    (fun i hi => absurd hi (Nat.not_lt_zero i))).2.2

/-- C10: no component supplies an identifier in an insert call: the
Seeder's `fakerUser` payload is exactly a name and an email, the user
and category insert payloads carry no identifier field at all, and the
identifier of every created record is the store's counter value at
persistence time — it originates solely from the data store. -/
theorem identifier_store_assigned (s : Store) (name email catName : String)
    (nameGen emailGen : Nat → String) (i : Nat) :
    fakerUser nameGen emailGen i = (nameGen i, emailGen i) ∧
    (s.createUser name email).1.id = freshId s.nextId ∧
    (s.createCategory catName).1.id = freshId s.nextId ∧
    (categoryFactory catName s).1.id = freshId s.nextId :=
  ⟨rfl, rfl, rfl, rfl⟩

end SeedFactory
